import Mathlib

/-!
Verification development for the NUMTFinder fragment/block assembly and
circular-coverage engine (slimsuite/numtfinder, `code/numtfinder.py`).

The definitions below are a shallow embedding of `NUMTFinder.numtProcess`,
`NUMTFinder.mtQuery` and `NUMTFinder.coverageOutputs`.  Python integers are
modelled as `Int`, Python floats (bit scores, e-values, threshold fractions)
as `Rat`, and Python exceptions (`ZeroDivisionError` from `/`, `ValueError`
from `max` of an empty list) as `Except String`.
-/

namespace NUMTFinder

/-- Strand marker: the source uses the strings "+", "-" and the mixed-strand
sentinel string (plus, slash, minus). -/
inductive Strand where
  | plus
  | minus
  | mixed
deriving DecidableEq, Repr

/-- One raw local-alignment row of `$BASEFILE.numtsearch.unique.tdt`, after
`dataFormat` (numtfinder.py line 630): the columns consumed by `numtProcess`. -/
structure RawHit where
  Query : String
  Hit : String
  SbjStart : Int
  SbjEnd : Int
  QryStart : Int
  QryEnd : Int
  BitScore : Rat
  Expect : Rat
  Length : Int
  Identity : Int
deriving DecidableEq, Repr

/-- A NUMT fragment row of the `numtfrag` table after reformatting
(numtfinder.py lines 653-669): strand derived, assembly coordinates ordered,
query coordinates relabelled mtStart/mtEnd. -/
structure Fragment where
  SeqName : String
  Start : Int
  End : Int
  Strand : Strand
  BitScore : Rat
  Expect : Rat
  Length : Int
  Identity : Int
  mtStart : Int
  mtEnd : Int
deriving DecidableEq, Repr

/-- A NUMT block row of the `numtblock` table: a `numtfrag` row plus the
fields added at numtfinder.py lines 676-679. -/
structure Block where
  SeqName : String
  Start : Int
  End : Int
  Strand : Strand
  BitScore : Rat
  Expect : Rat
  Length : Int
  Identity : Int
  mtStart : Int
  mtEnd : Int
  mtFrag : String
  FragNum : Int
  FragLen : Int
  FragGaps : Int
deriving DecidableEq, Repr

/-- Python division `a / b` on run-time numbers: raises ZeroDivisionError on a
zero denominator, otherwise yields the exact quotient. -/
def pydiv (a b : Rat) : Except String Rat :=
  if b = 0 then Except.error "ZeroDivisionError" else Except.ok (a / b)

/-- Python `max` over a list of ids (numtfinder.py line 736): raises
ValueError on an empty list. -/
def pymax (l : List Int) : Except String Int :=
  match l with
  | [] => Except.error "ValueError: max() arg is an empty sequence"
  | x :: xs => Except.ok (xs.foldl max x)

/-- The mtmax contamination test on one raw hit (numtfinder.py line 637):
`mtid and mtcov and ((QryEnd - QryStart + 1) / mtlen) > mtcov and
(Identity / Length) > mtid`, with Python short-circuit evaluation. -/
def mtMaxFlag (mtid mtcov : Rat) (mtlen : Int) (e : RawHit) : Except String Bool :=
  if mtid = 0 then Except.ok false
  else if mtcov = 0 then Except.ok false
  else
    match pydiv ((e.QryEnd - e.QryStart + 1 : Int) : Rat) ((mtlen : Int) : Rat) with
    | Except.error s => Except.error s
    | Except.ok cov =>
      if cov > mtcov then
        match pydiv ((e.Identity : Int) : Rat) ((e.Length : Int) : Rat) with
        | Except.error s => Except.error s
        | Except.ok idfrac => Except.ok (decide (idfrac > mtid))
      else Except.ok false

/-- The filter loop of numtfinder.py lines 636-638: each entry of the hit
table is tested in order and paired with its flag; the first exception
aborts the phase. -/
def flagHits (mtid mtcov : Rat) (mtlen : Int) : List RawHit → Except String (List (RawHit × Bool))
  | [] => Except.ok []
  | e :: rest =>
    match mtMaxFlag mtid mtcov mtlen e with
    | Except.error s => Except.error s
    | Except.ok b =>
      match flagHits mtid mtcov mtlen rest with
      | Except.error s => Except.error s
      | Except.ok l => Except.ok ((e, b) :: l)

/-- Strand derivation and field relabelling (numtfinder.py lines 654-663):
strand is "-" iff End < Start on the assembly, in which case the assembly
coordinates are swapped. -/
def toFragment (e : RawHit) : Fragment :=
  if e.SbjEnd < e.SbjStart then
    { SeqName := e.Hit, Start := e.SbjEnd, End := e.SbjStart, Strand := Strand.minus,
      BitScore := e.BitScore, Expect := e.Expect, Length := e.Length,
      Identity := e.Identity, mtStart := e.QryStart, mtEnd := e.QryEnd }
  else
    { SeqName := e.Hit, Start := e.SbjStart, End := e.SbjEnd, Strand := Strand.plus,
      BitScore := e.BitScore, Expect := e.Expect, Length := e.Length,
      Identity := e.Identity, mtStart := e.QryStart, mtEnd := e.QryEnd }

/-- Demodulation of one doubled-circular query coordinate (numtfinder.py
lines 668-669): subtract mtLen once when the coordinate exceeds it. -/
def demodulate (mtlen q : Int) : Int :=
  if q > mtlen then q - mtlen else q

/-- The circular-mode demodulation pass over one fragment (numtfinder.py
lines 666-669): in linear mode (`circle = false`) nothing happens. -/
def demodFragment (circle : Bool) (mtlen : Int) (f : Fragment) : Fragment :=
  if circle then
    { f with mtStart := demodulate mtlen f.mtStart, mtEnd := demodulate mtlen f.mtEnd }
  else f

/-- Rank of a strand string under Python string comparison: "+" sorts before
the mixed sentinel, which sorts before "-".  Used for the
(SeqName, Start, End, Strand) key sort. -/
def strandRank : Strand → Int
  | Strand.plus => 0
  | Strand.mixed => 1
  | Strand.minus => 2

/-- Ascending order on the fragment key tuple (SeqName, Start, End, Strand). -/
def fragKeyLE (a b : Fragment) : Prop :=
  a.SeqName < b.SeqName ∨
    (a.SeqName = b.SeqName ∧
      (a.Start < b.Start ∨
        (a.Start = b.Start ∧
          (a.End < b.End ∨
            (a.End = b.End ∧ strandRank a.Strand ≤ strandRank b.Strand)))))

instance (a b : Fragment) : Decidable (fragKeyLE a b) := by
  unfold fragKeyLE; infer_instance

/-- Stable insertion of a fragment into a key-sorted list. -/
def insertFrag (a : Fragment) : List Fragment → List Fragment
  | [] => [a]
  | b :: bs => if fragKeyLE a b then a :: b :: bs else b :: insertFrag a bs

/-- The key sort performed by `blockdb.entries(sorted=True)`
(numtfinder.py line 681). -/
def sortFrags : List Fragment → List Fragment
  | [] => []
  | a :: as_ => insertFrag a (sortFrags as_)

/-- Seeding of a new open block from a fragment (numtfinder.py lines 676-679,
686 and 698-700): FragNum starts at 1, FragLen is the assembly span,
FragGaps 0, mtFrag the fragment's own mtDNA range. -/
def seedBlock (f : Fragment) : Block :=
  { SeqName := f.SeqName, Start := f.Start, End := f.End, Strand := f.Strand,
    BitScore := f.BitScore, Expect := f.Expect, Length := f.Length,
    Identity := f.Identity, mtStart := f.mtStart, mtEnd := f.mtEnd,
    mtFrag := toString f.mtStart ++ "-" ++ toString f.mtEnd,
    FragNum := 1, FragLen := f.End - f.Start + 1, FragGaps := 0 }

/-- Merging the next fragment into the open block (numtfinder.py lines
690-696): FragGaps grows by the gap before End is extended, Expect takes the
minimum, the additive fields are summed, and the strand becomes the mixed
sentinel when the strands disagree. -/
def extendBlock (prev : Block) (f : Fragment) : Block :=
  { prev with
    FragGaps := prev.FragGaps + (f.Start - prev.End - 1),
    End := f.End,
    Expect := min f.Expect prev.Expect,
    BitScore := prev.BitScore + f.BitScore,
    Length := prev.Length + f.Length,
    Identity := prev.Identity + f.Identity,
    FragNum := prev.FragNum + 1,
    FragLen := prev.FragLen + (f.End - f.Start + 1),
    mtFrag := prev.mtFrag ++ "|" ++ toString f.mtStart ++ "-" ++ toString f.mtEnd,
    Strand := if prev.Strand ≠ f.Strand then Strand.mixed else prev.Strand }

/-- One iteration of the merge loop (numtfinder.py lines 683-701).  The head
of the accumulator is the current open block (`prevfrag`); the merge test is
`SeqName equal and (Start - End) ≤ fragmerge`, plus equal strands when
`stranded` is set. -/
def mergeStep (fragmerge : Int) (stranded : Bool) (acc : List Block) (f : Fragment) : List Block :=
  match acc with
  | [] => [seedBlock f]
  | prev :: rest =>
    if prev.SeqName = f.SeqName ∧ f.Start - prev.End ≤ fragmerge ∧
        (stranded = true → prev.Strand = f.Strand) then
      extendBlock prev f :: rest
    else
      seedBlock f :: prev :: rest

/-- Closing a block (numtfinder.py line 707): the Length field is overwritten
with the assembly span End - Start + 1. -/
def finalizeBlock (b : Block) : Block :=
  { b with Length := b.End - b.Start + 1 }

/-- The single-pass greedy merge of the sorted fragment list into blocks
(numtfinder.py lines 680-709), including the final Length overwrite applied
to every emitted block. -/
def mergeBlocks (fragmerge : Int) (stranded : Bool) (frags : List Fragment) : List Block :=
  ((frags.foldl (mergeStep fragmerge stranded) []).reverse).map finalizeBlock

/-- The run state touched by `mtQuery`: the query file name and mtLen.
mtLen defaults to 0 (`_setDefaults` int default, numtfinder.py line 229). -/
structure NUMTState where
  mtQueryFile : String
  mtLen : Int
deriving DecidableEq, Repr

/-- The initial run state: no query file, mtLen at its integer default 0. -/
def initState : NUMTState := { mtQueryFile := "None", mtLen := 0 }

/-- The `mtQuery` setup step (numtfinder.py lines 564-587): in linear mode
(`circle = false`) only the query file name is set and the method returns
before mtLen is assigned; in circular mode mtLen is set to the length of the
single-copy mtDNA sequence. -/
def mtQueryStep (circle : Bool) (mtdnaFile mt2xFile : String) (mtdnaLen : Int)
    (st : NUMTState) : NUMTState :=
  if circle = false then { st with mtQueryFile := mtdnaFile }
  else { st with mtQueryFile := mt2xFile, mtLen := mtdnaLen }

/-- The fragment/block phase of `numtProcess` (numtfinder.py lines 624-711):
flag suspected mtDNA hits (aborting on an exception), drop flagged hits and
hits to excluded sequences, reformat into fragments, demodulate in circular
mode, sort by the fragment key, and merge into blocks.  Returns the fragment
table and the block table. -/
def numtProcessTables (circle : Bool) (mtid mtcov : Rat) (mtlen fragmerge : Int)
    (stranded mtMaxExclude : Bool) (exclude : List String) (hits : List RawHit) :
    Except String (List Fragment × List Block) :=
  match flagHits (max 0 mtid) (max 0 mtcov) mtlen hits with
  | Except.error s => Except.error s
  | Except.ok flagged =>
    let filtseq := ((flagged.filter (fun p => p.2)).map (fun p => p.1.Hit))
    let exclude2 := if mtMaxExclude then exclude ++ filtseq.filter (fun n => !(exclude.contains n)) else exclude
    let kept := ((flagged.filter (fun p => !p.2)).map Prod.fst).filter
      (fun e => !(exclude2.contains e.Hit))
    let frags := sortFrags ((kept.map toFragment).map (demodFragment circle mtlen))
    Except.ok (frags, mergeBlocks fragmerge stranded frags)

/-- A row of the `rid` table used by the Circular Coverage Mapper
(numtfinder.py lines 726-750): id, locus, mtDNA start/end, read length,
strand. -/
structure RIDEntry where
  RID : Int
  Locus : String
  Start : Int
  End : Int
  RLen : Int
  Strand : Strand
deriving DecidableEq, Repr

/-- One fragment re-expressed as a rid row (numtfinder.py lines 726-734):
Start/End are the fragment's mtStart/mtEnd and RLen is the fragment's
(renamed) alignment Length field. -/
def fragToRID (locus : String) (id_ : Int) (f : Fragment) : RIDEntry :=
  { RID := id_, Locus := locus, Start := f.mtStart, End := f.mtEnd,
    RLen := f.Length, Strand := f.Strand }

/-- `riddb.autoID()` (numtfinder.py line 728): sequential ids from `n`
upwards, one per fragment. -/
def autoID (locus : String) (n : Int) : List Fragment → List RIDEntry
  | [] => []
  | f :: fs => fragToRID locus n f :: autoID locus (n + 1) fs

/-- The origin-splitting loop (numtfinder.py lines 738-747): each entry with
strand "+" and Start > End spawns a new entry (fresh id, End set to mtLen,
Start kept) while the original entry's Start is set to 1; other entries are
untouched.  Returns the processed originals, the appended new entries, and
the next fresh id. -/
def splitLoop (mtlen : Int) : List RIDEntry → Int → List RIDEntry × List RIDEntry × Int
  | [], nid => ([], [], nid)
  | r :: rs, nid =>
    if r.Strand = Strand.plus ∧ r.Start > r.End then
      ({ r with Start := 1 } :: (splitLoop mtlen rs (nid + 1)).1,
       { r with End := mtlen, RID := nid } :: (splitLoop mtlen rs (nid + 1)).2.1,
       (splitLoop mtlen rs (nid + 1)).2.2)
    else
      (r :: (splitLoop mtlen rs nid).1,
       (splitLoop mtlen rs nid).2.1,
       (splitLoop mtlen rs nid).2.2)

/-- The origin-splitting pass (numtfinder.py lines 736-748): the fresh-id
counter is `max` of the existing ids plus one (a ValueError on an empty
table), and the final table holds the processed originals followed by the
appended split pieces in id order. -/
def splitPass (mtlen : Int) (rids : List RIDEntry) : Except String (List RIDEntry) :=
  match pymax (rids.map RIDEntry.RID) with
  | Except.error s => Except.error s
  | Except.ok mx =>
    Except.ok ((splitLoop mtlen rids (mx + 1)).1 ++ (splitLoop mtlen rids (mx + 1)).2.1)

/-- The Coverage Mapper front end (numtfinder.py lines 724-750): the filtered
fragment table becomes the rid table (ids 1..N) and origin-spanning "+"
fragments are split. -/
def coverageRID (mtlen : Int) (locus : String) (frags : List Fragment) :
    Except String (List RIDEntry) :=
  splitPass mtlen (autoID locus 1 frags)

/-! Concrete fragments and hits used as inputs for the claim theorems. -/

/-- Same-sequence fragment pair for the merge gap boundary: A = [100, 500]. -/
def fragC1a : Fragment :=
  { SeqName := "ctgA", Start := 100, End := 500, Strand := Strand.plus,
    BitScore := 500, Expect := 1/1000000, Length := 401, Identity := 390,
    mtStart := 1, mtEnd := 400 }

/-- B = [8501, 9000]: the intervening gap (positions 501..8500) is 8000. -/
def fragC1b : Fragment :=
  { fragC1a with Start := 8501, End := 9000, mtStart := 500, mtEnd := 999 }

/-- B = [8500, 9000]: Start - End = 8000, the code's merge-eligible boundary. -/
def fragC1c : Fragment :=
  { fragC1a with Start := 8500, End := 9000, mtStart := 500, mtEnd := 999 }

/-- Earlier fragment [100, 1000] for the block-union claim. -/
def fragC2a : Fragment :=
  { SeqName := "ctgB", Start := 100, End := 1000, Strand := Strand.plus,
    BitScore := 800, Expect := 0, Length := 901, Identity := 880,
    mtStart := 1, mtEnd := 900 }

/-- Later fragment [200, 300], wholly contained inside [100, 1000]. -/
def fragC2b : Fragment :=
  { fragC2a with
    Start := 200
    End := 300
    Length := 101
    Identity := 99
    mtStart := 1000
    mtEnd := 1100 }

/-- Fragment [100, 500] with alignment Length 350 for the block Length claim. -/
def fragC6a : Fragment :=
  { SeqName := "ctgC", Start := 100, End := 500, Strand := Strand.plus,
    BitScore := 300, Expect := 0, Length := 350, Identity := 340,
    mtStart := 1, mtEnd := 340 }

/-- Fragment [1000, 1400] with alignment Length 380, merged with fragC6a. -/
def fragC6b : Fragment :=
  { fragC6a with
    Start := 1000
    End := 1400
    Length := 380
    Identity := 360
    mtStart := 400
    mtEnd := 779 }

/-- Raw hit with full coverage (span 1000 of mtLen 1000) and full identity. -/
def hitC3 : RawHit :=
  { Query := "mt2X", Hit := "ctgF", SbjStart := 1, SbjEnd := 1000,
    QryStart := 1, QryEnd := 1000, BitScore := 1000, Expect := 0,
    Length := 100, Identity := 100 }

/-! Claim theorems. -/

/-- C9: for mtLen = L and a raw query coordinate q with 1 ≤ q ≤ 2L,
demodulation subtracts L exactly once when q > L and leaves q unchanged
otherwise, so the result lies in [1, L] and demodulation is idempotent; in
linear mode no demodulation occurs. -/
theorem C9_demodulation (L q : Int) (h1 : 1 ≤ q) (h2 : q ≤ 2 * L) :
    (1 ≤ demodulate L q ∧ demodulate L q ≤ L ∧
      demodulate L (demodulate L q) = demodulate L q)
    ∧ ∀ f : Fragment, demodFragment false L f = f := by
  constructor
  · simp only [demodulate]
    split_ifs <;> omega
  · intro f
    simp [demodFragment]

/-- Witness for C9 at L = 10, q = 17, with the linear-mode conjunct
instantiated at a concrete fragment. -/
theorem C9_demodulation_witness :
    (1 ≤ demodulate 10 17 ∧ demodulate 10 17 ≤ 10 ∧
      demodulate 10 (demodulate 10 17) = demodulate 10 17)
    ∧ demodFragment false 10 fragC1a = fragC1a :=
  ⟨(C9_demodulation 10 17 (by decide) (by decide)).1,
   (C9_demodulation 10 17 (by decide) (by decide)).2 fragC1a⟩

/-- C3: when mtMaxCov and mtMaxId are both nonzero (and mtLen and the
alignment length are positive so the divisions are defined), a raw hit is
flagged as suspected native mtDNA iff (QryEnd - QryStart + 1) / mtLen
exceeds mtMaxCov and Identity / Length exceeds mtMaxId; a hit whose coverage
equals mtMaxCov exactly is never flagged. -/
theorem C3_contamination_threshold (mtid mtcov : Rat) (mtlen : Int) (e : RawHit)
    (hid : mtid ≠ 0) (hcov : mtcov ≠ 0) (hlen : 0 < mtlen) (hal : 0 < e.Length) :
    (mtMaxFlag mtid mtcov mtlen e = Except.ok true ↔
      (((e.QryEnd - e.QryStart + 1 : Int) : Rat) / ((mtlen : Int) : Rat) > mtcov ∧
        ((e.Identity : Int) : Rat) / ((e.Length : Int) : Rat) > mtid))
    ∧ (((e.QryEnd - e.QryStart + 1 : Int) : Rat) / ((mtlen : Int) : Rat) = mtcov →
        mtMaxFlag mtid mtcov mtlen e = Except.ok false) := by
  have hm : ((mtlen : Int) : Rat) ≠ 0 := Int.cast_ne_zero.mpr (by omega)
  have hl : ((e.Length : Int) : Rat) ≠ 0 := Int.cast_ne_zero.mpr (by omega)
  simp only [mtMaxFlag, pydiv, if_neg hid, if_neg hcov, if_neg hm, if_neg hl]
  constructor
  · by_cases h1 : ((e.QryEnd - e.QryStart + 1 : Int) : Rat) / ((mtlen : Int) : Rat) > mtcov
    · rw [if_pos h1]
      simp only [Except.ok.injEq, decide_eq_true_eq]
      exact ⟨fun h => ⟨h1, h⟩, fun h => h.2⟩
    · rw [if_neg h1]
      constructor
      · intro h
        exact absurd h (by simp)
      · intro hc
        exact absurd hc.1 h1
  · intro hEq
    rw [if_neg (by rw [hEq]; exact lt_irrefl mtcov)]

/-- Witness for C3 at mtMaxCov = mtMaxId = 99/100, mtLen = 1000 and a hit
with coverage 1 and identity fraction 1. -/
theorem C3_contamination_threshold_witness :
    (mtMaxFlag (99/100) (99/100) 1000 hitC3 = Except.ok true ↔
      (((hitC3.QryEnd - hitC3.QryStart + 1 : Int) : Rat) / (((1000 : Int) : Int) : Rat) > 99/100 ∧
        ((hitC3.Identity : Int) : Rat) / ((hitC3.Length : Int) : Rat) > 99/100))
    ∧ (((hitC3.QryEnd - hitC3.QryStart + 1 : Int) : Rat) / (((1000 : Int) : Int) : Rat) = 99/100 →
        mtMaxFlag (99/100) (99/100) 1000 hitC3 = Except.ok false) :=
  C3_contamination_threshold (99/100) (99/100) 1000 hitC3
    (by norm_num) (by norm_num) (by decide) (by decide)

/-- C1 counterexample: with fragMerge = 8000, A = [100, 500] and
B = [8501, 9000] (intervening gap exactly 8000) do NOT merge: the code
compares Start - End = 8001 against the threshold, so two blocks are
emitted, refuting "gap of exactly the threshold merges" under the spec
example's gap counting. -/
theorem C1_counterexample :
    ¬ (mergeBlocks 8000 false [fragC1a, fragC1b]).length = 1 ∧
    (mergeBlocks 8000 false [fragC1a, fragC1b]).length = 2 := by
  have h : (mergeBlocks 8000 false [fragC1a, fragC1b]).length = 2 := rfl
  exact ⟨by rw [h]; omega, h⟩

/-- C1 amended: two consecutive same-sequence fragments merge into one block
iff next.Start - prev.End ≤ fragMerge, i.e. an intervening gap of
fragMerge - 1 is the largest that merges; a gap of exactly fragMerge
(Start - End = fragMerge + 1) starts a new block. -/
theorem C1_merge_gap_boundary (m : Int) (a b : Fragment)
    (hseq : a.SeqName = b.SeqName) :
    (mergeBlocks m false [a, b]).length = 1 ↔ b.Start - a.End ≤ m := by
  simp only [mergeBlocks, List.foldl, mergeStep]
  by_cases hm : b.Start - a.End ≤ m
  · rw [if_pos ⟨hseq, hm, by simp⟩]
    simpa using hm
  · rw [if_neg (fun hand => hm hand.2.1)]
    simpa using hm

/-- Witness for C1 amended: A = [100, 500] and B = [8500, 9000]
(Start - End = 8000 = fragMerge) are merged into a single block. -/
theorem C1_merge_gap_boundary_witness :
    (mergeBlocks 8000 false [fragC1a, fragC1c]).length = 1 ↔
      fragC1c.Start - fragC1a.End ≤ 8000 :=
  C1_merge_gap_boundary 8000 fragC1a fragC1c rfl

/-- C2 counterexample: merging [100, 1000] with the wholly-contained later
fragment [200, 300] emits a single block whose End is 300, not the maximum
member End 1000, so the block does not contain its first member. -/
theorem C2_counterexample :
    ((mergeBlocks 8000 false [fragC2a, fragC2b]).map (fun bl => (bl.Start, bl.End))) =
      [((100 : Int), (300 : Int))] ∧ ¬ ((1000 : Int) ≤ 300) :=
  ⟨rfl, by decide⟩

/-- C2 amended: a merged two-fragment block spans [first.Start, second.End] —
the end is the LAST merged member's end, not the maximum member end — and in
general the last emitted block's End is the End of the last fragment
processed. -/
theorem C2_block_span (m : Int) (s : Bool) (a b : Fragment)
    (hseq : a.SeqName = b.SeqName) (hm : b.Start - a.End ≤ m) :
    ((mergeBlocks m false [a, b]).map (fun bl => (bl.Start, bl.End)) = [(a.Start, b.End)])
    ∧ ∀ (frags : List Fragment) (f : Fragment),
        ((mergeBlocks m s (frags ++ [f])).getLast?).map Block.End = some f.End := by
  constructor
  · simp only [mergeBlocks, List.foldl, mergeStep]
    rw [if_pos ⟨hseq, hm, by simp⟩]
    rfl
  · intro frags f
    unfold mergeBlocks
    rw [List.foldl_append]
    simp only [List.foldl]
    generalize List.foldl (mergeStep m s) [] frags = acc
    cases acc with
    | nil => rfl
    | cons prev rest =>
      simp only [mergeStep]
      split_ifs with h
      · rw [List.reverse_cons, List.map_append]
        simp only [List.map_cons, List.map_nil]
        rw [List.getLast?_concat]
        rfl
      · rw [List.reverse_cons, List.map_append]
        simp only [List.map_cons, List.map_nil]
        rw [List.getLast?_concat]
        rfl

/-- Witness for C2 amended at the contained-fragment pair, with the
last-block conjunct instantiated at concrete fragments. -/
theorem C2_block_span_witness :
    ((mergeBlocks 8000 false [fragC2a, fragC2b]).map (fun bl => (bl.Start, bl.End)) =
      [(fragC2a.Start, fragC2b.End)])
    ∧ ((mergeBlocks 8000 true ([fragC6a] ++ [fragC6b])).getLast?).map Block.End =
        some fragC6b.End :=
  ⟨(C2_block_span 8000 true fragC2a fragC2b rfl (by decide)).1,
   (C2_block_span 8000 true fragC2a fragC2b rfl (by decide)).2 [fragC6a] fragC6b⟩

/-- C6: the persisted block Length is overwritten at block close with the
assembly span End - Start + 1 (here 1301), not the summed alignment Length
of the members (here 350 + 380 = 730), contradicting the module docstring
which states the BLAST alignment Length is summed in the Length field. -/
theorem C6_block_length_is_span :
    (mergeBlocks 8000 false [fragC6a, fragC6b]).map Block.Length = [(1301 : Int)] ∧
    fragC6a.Length + fragC6b.Length = 730 ∧ ¬ ((1301 : Int) = 730) :=
  ⟨rfl, rfl, by decide⟩

/-- Plus-strand origin-spanning fragment: mtStart 16500 > mtEnd 500. -/
def fragC4 : Fragment :=
  { SeqName := "ctgD", Start := 1000, End := 2000, Strand := Strand.plus,
    BitScore := 99, Expect := 0, Length := 1001, Identity := 990,
    mtStart := 16500, mtEnd := 500 }

/-- Minus-strand origin-spanning fragment. -/
def fragC5 : Fragment := { fragC4 with Strand := Strand.minus }

/-- Fragment whose alignment Length 450 differs from its mtDNA span 400. -/
def fragC7 : Fragment :=
  { SeqName := "ctgE", Start := 5000, End := 5400, Strand := Strand.plus,
    BitScore := 50, Expect := 0, Length := 450, Identity := 420,
    mtStart := 1, mtEnd := 400 }

/-- Raw hit used for the linear-mode division witness. -/
def hitC10 : RawHit := { hitC3 with Hit := "ctgG" }

/-- Every rid row created by autoID carries its source fragment's mtDNA
coordinates, strand and alignment length. -/
lemma autoID_mem (locus : String) (frags : List Fragment) :
    ∀ (n : Int) (r : RIDEntry), r ∈ autoID locus n frags →
      ∃ f ∈ frags, r.Start = f.mtStart ∧ r.End = f.mtEnd ∧ r.Strand = f.Strand ∧
        r.RLen = f.Length := by
  induction frags with
  | nil =>
    intro n r hr
    simp [autoID] at hr
  | cons f fs ih =>
    intro n r hr
    simp only [autoID, List.mem_cons] at hr
    rcases hr with h | h
    · refine ⟨f, List.mem_cons_self f fs, ?_⟩
      rw [h]
      exact ⟨rfl, rfl, rfl, rfl⟩
    · obtain ⟨g, hg, hprops⟩ := ih (n + 1) r h
      exact ⟨g, List.mem_cons_of_mem f hg, hprops⟩

/-- Shape of the origin-splitting loop output: every emitted row is either an
untouched non-spanning input row, a split original (Start set to 1), or a
split piece (End set to mtLen, fresh id). -/
lemma splitLoop_shape (mtlen : Int) (rids : List RIDEntry) :
    ∀ (nid : Int) (x : RIDEntry),
      (x ∈ (splitLoop mtlen rids nid).1 ∨ x ∈ (splitLoop mtlen rids nid).2.1) →
      ∃ r ∈ rids,
        (x = r ∧ ¬(r.Strand = Strand.plus ∧ r.Start > r.End)) ∨
        (r.Strand = Strand.plus ∧ r.Start > r.End ∧
          (x = { r with Start := 1 } ∨ ∃ k, x = { r with End := mtlen, RID := k })) := by
  induction rids with
  | nil =>
    intro nid x hx
    simp [splitLoop] at hx
  | cons r rs ih =>
    intro nid x hx
    by_cases hc : r.Strand = Strand.plus ∧ r.Start > r.End
    · simp only [splitLoop, if_pos hc, List.mem_cons] at hx
      rcases hx with (h | h) | (h | h)
      · exact ⟨r, List.mem_cons_self r rs, Or.inr ⟨hc.1, hc.2, Or.inl h⟩⟩
      · obtain ⟨g, hg, hp⟩ := ih (nid + 1) x (Or.inl h)
        exact ⟨g, List.mem_cons_of_mem r hg, hp⟩
      · exact ⟨r, List.mem_cons_self r rs, Or.inr ⟨hc.1, hc.2, Or.inr ⟨nid, h⟩⟩⟩
      · obtain ⟨g, hg, hp⟩ := ih (nid + 1) x (Or.inr h)
        exact ⟨g, List.mem_cons_of_mem r hg, hp⟩
    · simp only [splitLoop, if_neg hc, List.mem_cons] at hx
      rcases hx with (h | h) | h
      · exact ⟨r, List.mem_cons_self r rs, Or.inl ⟨h, hc⟩⟩
      · obtain ⟨g, hg, hp⟩ := ih nid x (Or.inl h)
        exact ⟨g, List.mem_cons_of_mem r hg, hp⟩
      · obtain ⟨g, hg, hp⟩ := ih nid x (Or.inr h)
        exact ⟨g, List.mem_cons_of_mem r hg, hp⟩

/-- C4 counterexample: for a plus-strand fragment with mtStart 16500 >
mtEnd 500 on mtLen 17000, the row that KEEPS the original id 1 is [1, 500]
and the fresh id 2 receives [16500, 17000] — the reverse of the claimed id
assignment. -/
theorem C4_counterexample :
    ((coverageRID 17000 "mtgenome" [fragC4]).map
        (fun l => l.map (fun r => (r.RID, r.Start, r.End))) =
      Except.ok [((1 : Int), (1 : Int), (500 : Int)), ((2 : Int), (16500 : Int), (17000 : Int))]) ∧
    ¬ (((1 : Int), (1 : Int), (500 : Int)) = ((1 : Int), (16500 : Int), (17000 : Int))) :=
  ⟨rfl, by decide⟩

/-- C4 amended: a plus-strand origin-spanning fragment is split into exactly
two intervals, where the interval keeping the original id has start 1 and
end = the original mtEnd, and the interval with the fresh id retains the
original start and has end = mtLen. -/
theorem C4_origin_split (mtlen : Int) (locus : String) (f : Fragment)
    (hplus : f.Strand = Strand.plus) (hspan : f.mtStart > f.mtEnd) :
    coverageRID mtlen locus [f] =
      Except.ok
        [{ RID := 1, Locus := locus, Start := 1, End := f.mtEnd,
           RLen := f.Length, Strand := f.Strand },
         { RID := 2, Locus := locus, Start := f.mtStart, End := mtlen,
           RLen := f.Length, Strand := f.Strand }] := by
  simp only [coverageRID, autoID, splitPass, pymax, fragToRID, List.map_cons, List.map_nil,
    List.foldl_nil, splitLoop]
  split_ifs with h
  · rfl
  · exact absurd ⟨hplus, hspan⟩ h

/-- Witness for C4 amended at the concrete spanning fragment. -/
theorem C4_origin_split_witness :
    coverageRID 17000 "mtgenome" [fragC4] =
      Except.ok
        [{ RID := 1, Locus := "mtgenome", Start := 1, End := fragC4.mtEnd,
           RLen := fragC4.Length, Strand := fragC4.Strand },
         { RID := 2, Locus := "mtgenome", Start := fragC4.mtStart, End := 17000,
           RLen := fragC4.Length, Strand := fragC4.Strand }] :=
  C4_origin_split 17000 "mtgenome" fragC4 rfl (by decide)

/-- C5 counterexample: a minus-strand origin-spanning row is not split and
keeps Start 16500 > End 500, violating start ≤ end after the split pass. -/
theorem C5_counterexample :
    ((coverageRID 17000 "mtgenome" [fragC5]).map
        (fun l => l.map (fun r => (r.Start, r.End, r.Strand))) =
      Except.ok [((16500 : Int), (500 : Int), Strand.minus)]) ∧
    ¬ ((16500 : Int) ≤ 500) :=
  ⟨rfl, by decide⟩

/-- C5 amended: after the splitting pass every interval satisfies
1 ≤ start and end ≤ mtLen, and every PLUS-strand interval satisfies
start ≤ end; minus-strand origin-spanning intervals keep start > end
because the split condition requires strand "+". -/
theorem C5_split_invariant (mtlen : Int) (locus : String) (frags : List Fragment)
    (out : List RIDEntry)
    (hin : ∀ f ∈ frags, 1 ≤ f.mtStart ∧ f.mtStart ≤ mtlen ∧ 1 ≤ f.mtEnd ∧ f.mtEnd ≤ mtlen)
    (hok : coverageRID mtlen locus frags = Except.ok out) :
    ∀ r ∈ out, 1 ≤ r.Start ∧ r.End ≤ mtlen ∧
      (r.Strand = Strand.plus → r.Start ≤ r.End) := by
  intro r hr
  unfold coverageRID splitPass at hok
  split at hok
  · exact absurd hok (by simp)
  · have hout := Except.ok.inj hok
    rw [← hout, List.mem_append] at hr
    rename_i mx hmx
    obtain ⟨r0, hr0, hshape⟩ := splitLoop_shape mtlen (autoID locus 1 frags) (mx + 1) r hr
    obtain ⟨f, hf, hS, hE, hStr, _⟩ := autoID_mem locus frags 1 r0 hr0
    obtain ⟨h1S, h2S, h1E, h2E⟩ := hin f hf
    rcases hshape with ⟨hxr, hnc⟩ | ⟨hplus, hgt, hcase⟩
    · rw [hxr]
      refine ⟨by omega, by omega, ?_⟩
      intro hp
      rcases not_and_or.mp hnc with h | h
      · exact absurd hp h
      · omega
    · rcases hcase with h | ⟨k, h⟩
      · rw [h]
        dsimp only
        exact ⟨le_refl 1, by omega, fun _ => by omega⟩
      · rw [h]
        dsimp only
        exact ⟨by omega, le_refl mtlen, fun _ => by omega⟩

/-- Witness for C5 amended at the split piece produced from the concrete
spanning fragment. -/
theorem C5_split_invariant_witness :
    1 ≤ ({ RID := 2, Locus := "mtgenome", Start := 16500, End := 17000,
           RLen := 1001, Strand := Strand.plus } : RIDEntry).Start ∧
    ({ RID := 2, Locus := "mtgenome", Start := 16500, End := 17000,
       RLen := 1001, Strand := Strand.plus } : RIDEntry).End ≤ 17000 ∧
    (({ RID := 2, Locus := "mtgenome", Start := 16500, End := 17000,
        RLen := 1001, Strand := Strand.plus } : RIDEntry).Strand = Strand.plus →
      ({ RID := 2, Locus := "mtgenome", Start := 16500, End := 17000,
         RLen := 1001, Strand := Strand.plus } : RIDEntry).Start ≤
        ({ RID := 2, Locus := "mtgenome", Start := 16500, End := 17000,
           RLen := 1001, Strand := Strand.plus } : RIDEntry).End) :=
  C5_split_invariant 17000 "mtgenome" [fragC4]
    [{ RID := 1, Locus := "mtgenome", Start := 1, End := 500,
       RLen := 1001, Strand := Strand.plus },
     { RID := 2, Locus := "mtgenome", Start := 16500, End := 17000,
       RLen := 1001, Strand := Strand.plus }]
    (by decide) rfl
    { RID := 2, Locus := "mtgenome", Start := 16500, End := 17000,
      RLen := 1001, Strand := Strand.plus }
    (List.mem_cons_of_mem _ (List.mem_cons_self _ _))

/-- C7 counterexample: the rid row of a fragment with alignment Length 450
but mtDNA span [1, 400] records read length 450, not end - start + 1 = 400. -/
theorem C7_counterexample :
    ((coverageRID 17000 "mtgenome" [fragC7]).map
        (fun l => l.map (fun r => (r.Start, r.End, r.RLen))) =
      Except.ok [((1 : Int), (400 : Int), (450 : Int))]) ∧
    ¬ ((450 : Int) = 400 - 1 + 1) :=
  ⟨rfl, by decide⟩

/-- C7 amended: every coverage interval's recorded read length equals its
source fragment's BLAST alignment Length field (renamed RLen), which need
not equal mtEnd - mtStart + 1. -/
theorem C7_read_length (mtlen : Int) (locus : String) (frags : List Fragment)
    (out : List RIDEntry) (hok : coverageRID mtlen locus frags = Except.ok out) :
    ∀ r ∈ out, ∃ f ∈ frags, r.RLen = f.Length := by
  intro r hr
  unfold coverageRID splitPass at hok
  split at hok
  · exact absurd hok (by simp)
  · have hout := Except.ok.inj hok
    rw [← hout, List.mem_append] at hr
    rename_i mx hmx
    obtain ⟨r0, hr0, hshape⟩ := splitLoop_shape mtlen (autoID locus 1 frags) (mx + 1) r hr
    obtain ⟨f, hf, _, _, _, hL⟩ := autoID_mem locus frags 1 r0 hr0
    refine ⟨f, hf, ?_⟩
    rcases hshape with ⟨hxr, _⟩ | ⟨_, _, hcase⟩
    · rw [hxr]
      exact hL
    · rcases hcase with h | ⟨k, h⟩
      · rw [h]
        dsimp only
        exact hL
      · rw [h]
        dsimp only
        exact hL

/-- Witness for C7 amended at the concrete fragment's rid row. -/
theorem C7_read_length_witness :
    ∃ f ∈ [fragC7],
      ({ RID := 1, Locus := "mtgenome", Start := 1, End := 400,
         RLen := 450, Strand := Strand.plus } : RIDEntry).RLen = f.Length :=
  C7_read_length 17000 "mtgenome" [fragC7]
    [{ RID := 1, Locus := "mtgenome", Start := 1, End := 400,
       RLen := 450, Strand := Strand.plus }]
    rfl
    { RID := 1, Locus := "mtgenome", Start := 1, End := 400,
      RLen := 450, Strand := Strand.plus }
    (List.mem_cons_self _ _)

/-- C8: on an empty fragment set the Block Merger emits an empty block table,
but the Coverage Mapper's fresh-id computation takes the Python max of an
empty id list and raises ValueError instead of producing empty output. -/
theorem C8_empty_fragment_set :
    ∀ (m : Int) (s : Bool) (L : Int) (loc : String),
      mergeBlocks m s [] = [] ∧
      coverageRID L loc [] = Except.error "ValueError: max() arg is an empty sequence" :=
  fun _ _ _ _ => ⟨rfl, rfl⟩

/-- C10: in linear mode mtQuery returns before assigning mtLen, leaving its
default 0, and with both contamination thresholds positive the filter's
coverage computation divides by mtLen = 0 on the first hit, so the
fragment/block phase aborts with ZeroDivisionError and produces no tables. -/
theorem C10_linear_mode_division (mtdnaFile mt2xFile : String) (mtdnaLen : Int)
    (mtid mtcov : Rat) (hid : 0 < mtid) (hcov : 0 < mtcov)
    (fragmerge : Int) (stranded mtMaxExclude : Bool) (exclude : List String)
    (e : RawHit) (rest : List RawHit) :
    (mtQueryStep false mtdnaFile mt2xFile mtdnaLen initState).mtLen = 0 ∧
    numtProcessTables false mtid mtcov
        ((mtQueryStep false mtdnaFile mt2xFile mtdnaLen initState).mtLen)
        fragmerge stranded mtMaxExclude exclude (e :: rest) =
      Except.error "ZeroDivisionError" := by
  have hLen : (mtQueryStep false mtdnaFile mt2xFile mtdnaLen initState).mtLen = 0 := rfl
  refine ⟨hLen, ?_⟩
  rw [hLen]
  have h1 : (0 : Rat) < max 0 mtid := lt_of_lt_of_le hid (le_max_right 0 mtid)
  have h2 : (0 : Rat) < max 0 mtcov := lt_of_lt_of_le hcov (le_max_right 0 mtcov)
  simp [numtProcessTables, flagHits, mtMaxFlag, pydiv, h1.ne', h2.ne']

/-- Witness for C10 at the default 99 percent thresholds and one raw hit. -/
theorem C10_linear_mode_division_witness :
    (mtQueryStep false "mtdna.fasta" "mtdna2X.fasta" 16569 initState).mtLen = 0 ∧
    numtProcessTables false (99/100) (99/100)
        ((mtQueryStep false "mtdna.fasta" "mtdna2X.fasta" 16569 initState).mtLen)
        8000 false true ["mtgenome"] [hitC10] =
      Except.error "ZeroDivisionError" :=
  C10_linear_mode_division "mtdna.fasta" "mtdna2X.fasta" 16569 (99/100) (99/100)
    (by norm_num) (by norm_num) 8000 false true ["mtgenome"] hitC10 []

end NUMTFinder
